import Mathlib

/-!
Verification development for the FY6900 serial function-generator driver.

The definitions below are a shallow embedding of the driver code
(fy6900.py).  Python floats are modelled as rationals, machine integers as
Int/Nat, strings as lists of characters, and exceptions as an explicit
error type.  Wire interaction is made explicit: each modelled operation
returns, besides its result or error, the data it would have written to
the serial port.
-/

/-- Errors raised by the driver.  ValueError on argument validation is
rendered as invalidArgument; the three CommunicationError classes map to
notConnected, timeout and protocolViolation. -/
inductive PyErr where
  | invalidArgument
  | notConnected
  | timeout
  | protocolViolation
deriving DecidableEq, Repr

/-- The byte-by-byte read loop of sendCommand.  The incoming serial
traffic is modelled as the list of results of the successive one-byte
reads: some b is a read that yielded byte b, none is a read that returned
zero bytes (the serial timeout expired).  The loop accumulates bytes until
it sees the 0x0A terminator (returned payload excludes it) and raises
Timeout on a zero-length read; an exhausted model stream is likewise a
read that yields nothing. -/
def readLoop : List (Option ℕ) → List ℕ → Except PyErr (List ℕ)
  | [], _ => .error .timeout
  | none :: _, _ => .error .timeout
  | some c :: rest, acc => if c = 10 then .ok acc else readLoop rest (acc ++ [c])

/-- Decode step of get channel frequency.  The argument is the result of
parsing the device reply as a float (none when float() raised). -/
def get_channel_frequency_decode (maxfrq : ℚ) : Option ℚ → Except PyErr ℚ
  | none => .error .protocolViolation
  | some r => if r < 0 ∨ maxfrq < r then .error .protocolViolation else .ok r

/-- Decode step of get channel amplitude: reply divided by 10000, then
range-checked against 0..20 V. -/
def get_channel_amplitude_decode : Option ℚ → Except PyErr ℚ
  | none => .error .protocolViolation
  | some r =>
    if r / 10000 < 0 ∨ 20 < r / 10000 then .error .protocolViolation
    else .ok (r / 10000)

/-- Decode step of get channel offset: wraparound branch for raw values
above 10000, then range check against -20..20 V. -/
def get_channel_offset_decode : Option ℚ → Except PyErr ℚ
  | none => .error .protocolViolation
  | some r =>
    if (if 10000 < r then -1 * (4294967296 - r) / 1000 else r / 1000) < -20 ∨
        20 < (if 10000 < r then -1 * (4294967296 - r) / 1000 else r / 1000) then
      .error .protocolViolation
    else .ok (if 10000 < r then -1 * (4294967296 - r) / 1000 else r / 1000)

/-- Decode step of get channel duty: reply divided by 1000.  The source
performs no range check on the decoded value (the except branch only
covers the parse failure). -/
def get_channel_duty_decode : Option ℚ → Except PyErr ℚ
  | none => .error .protocolViolation
  | some r => .ok (r / 1000)

/-- Decode step of get channel phase: reply divided by 1000, then checked
against the closed interval 0..360. -/
def get_channel_phase_decode : Option ℚ → Except PyErr ℚ
  | none => .error .protocolViolation
  | some r =>
    if r / 1000 < 0 ∨ 360 < r / 1000 then .error .protocolViolation
    else .ok (r / 1000)

/-- Decode step of is channel enabled: reply parsed as int (none when
int() raised); 0 is off, 255 is on, anything else a protocol violation. -/
def is_channel_enabled_decode : Option ℤ → Except PyErr Bool
  | none => .error .protocolViolation
  | some n =>
    if n = 0 then .ok false
    else if n = 255 then .ok true
    else .error .protocolViolation

/-- Command lines a per-channel setter can write, identified by mnemonic
and numeric payload. -/
inductive Cmd where
  | WMF (v : ℚ)
  | WFF (v : ℚ)
  | WMN1
  | WMN0
  | WFN1
  | WFN0
deriving DecidableEq, Repr

/-- Model of set channel frequency: range check on the setpoint, then a
command write for channel 0 or 1.  The source has no else branch on the
channel dispatch, so any other channel silently writes nothing and the
call still reports success. -/
def set_channel_frequency (maxfrq : ℚ) (channel : ℤ) (frequency : ℚ) :
    Except PyErr (List Cmd) :=
  if frequency < 0 ∨ maxfrq < frequency then .error .invalidArgument
  else if channel = 0 then .ok [.WMF frequency]
  else if channel = 1 then .ok [.WFF frequency]
  else .ok []

/-- Model of set channel enabled: four guarded command writes.  As in the
source, a channel other than 0 or 1 matches no branch, writes nothing and
still reports success. -/
def set_channel_enabled (channel : ℤ) (enable : Bool) : Except PyErr (List Cmd) :=
  if channel = 0 ∧ enable = true then .ok [.WMN1]
  else if channel = 0 ∧ enable = false then .ok [.WMN0]
  else if channel = 1 ∧ enable = true then .ok [.WFN1]
  else if channel = 1 ∧ enable = false then .ok [.WFN0]
  else .ok []

/-- The first loop of set channel phase: while the value is negative, add
360. -/
def addUntilNonneg (p : ℚ) : ℚ :=
  if h : p < 0 then addUntilNonneg (p + 360) else p
termination_by (⌈-p / 360⌉).toNat
decreasing_by
  have h1 : (0 : ℚ) < -p / 360 := by
    apply div_pos
    · linarith
    · norm_num
  have h2 : (1 : ℤ) ≤ ⌈-p / 360⌉ := Int.ceil_pos.mpr h1
  have h3 : -(p + 360) / 360 = -p / 360 - 1 := by ring
  rw [h3, Int.ceil_sub_one]
  omega

/-- The second loop of set channel phase: while the value exceeds
359.999, subtract 360. -/
def subUntilCap (p : ℚ) : ℚ :=
  if h : 359999 / 1000 < p then subUntilCap (p - 360) else p
termination_by (⌈(p - 359999 / 1000) / 360⌉).toNat
decreasing_by
  have h1 : (0 : ℚ) < (p - 359999 / 1000) / 360 := by
    apply div_pos
    · linarith
    · norm_num
  have h2 : (1 : ℤ) ≤ ⌈(p - 359999 / 1000) / 360⌉ := Int.ceil_pos.mpr h1
  have h3 : (p - 360 - 359999 / 1000) / 360 = (p - 359999 / 1000) / 360 - 1 := by ring
  rw [h3, Int.ceil_sub_one]
  omega

/-- The numeric value transmitted by set channel phase: both
normalization loops applied in source order. -/
def set_channel_phase_value (p : ℚ) : ℚ := subUntilCap (addUntilNonneg p)

/-- Whitespace predicate used by the strip operation on device replies. -/
def pyIsSpace (c : Char) : Bool :=
  c = ' ' || c = '\t' || c = '\n' || c = '\r'

/-- Python strip: remove whitespace from both ends of a string. -/
def pyStrip (s : List Char) : List Char :=
  ((s.dropWhile pyIsSpace).reverse.dropWhile pyIsSpace).reverse

/-- Does the second list start with the first one (startswith). -/
def beginsWith : List Char → List Char → Bool
  | [], _ => true
  | _ :: _, [] => false
  | p :: ps, c :: cs => p = c && beginsWith ps cs

/-- Python split on the dash character. -/
def splitOnDash : List Char → List (List Char)
  | [] => [[]]
  | '-' :: rest => [] :: splitOnDash rest
  | c :: rest =>
    match splitOnDash rest with
    | chunk :: chunks => (c :: chunk) :: chunks
    | [] => [[c]]

/-- Value of a decimal digit character, none otherwise. -/
def digitVal (c : Char) : Option ℕ :=
  if '0' ≤ c ∧ c ≤ '9' then some (c.toNat - '0'.toNat) else none

/-- Accumulating decimal parse of a digit string. -/
def parseDigitsAux : List Char → ℕ → Option ℕ
  | [], acc => some acc
  | c :: rest, acc =>
    match digitVal c with
    | some d => parseDigitsAux rest (acc * 10 + d)
    | none => none

/-- Python int() restricted to the shapes occurring here: an optional
sign followed by a nonempty run of decimal digits; anything else raises,
modelled as none. -/
def pyParseInt : List Char → Option ℤ
  | [] => none
  | '-' :: rest =>
    if rest = [] then none else (parseDigitsAux rest 0).map (fun n => -(n : ℤ))
  | '+' :: rest =>
    if rest = [] then none else (parseDigitsAux rest 0).map (fun n => (n : ℤ))
  | s => (parseDigitsAux s 0).map (fun n => (n : ℤ))

/-- The expected identity marker of the device family. -/
def fy6900Marker : List Char := ['F', 'Y', '6', '9', '0', '0', '-']

/-- Extraction of the maximum-frequency figure from the identity string:
split on dashes, take the second part, drop its last character, parse as
an int.  A missing part (IndexError) or failed parse is none; both are
caught by the bare except of the source. -/
def parseMaxFrq (ident : List Char) : Option ℤ :=
  match splitOnDash ident with
  | _ :: p1 :: _ => pyParseInt p1.dropLast
  | _ => none

/-- Connection-relevant attributes of the driver object. -/
structure DriverState where
  portOpen : Bool
  identification : Option (List Char)
  maxfrq : Option ℚ
  serialnumber : Option (List Char)
deriving DecidableEq, Repr

/-- Driver state before any connect: no port, no identity data. -/
def initialState : DriverState := ⟨false, none, none, none⟩

/-- The device end of the identity handshake: raw replies to the UMO and
UID queries. -/
structure DeviceEnv where
  idReply : List Char
  serialReply : List Char

/-- The initialRequests handshake: record the stripped identity string,
check the family marker, parse the frequency figure (scaled by the
source's 10e6 factor), then record the serial number.  Failures raise
ProtocolViolation; every attribute assigned before the raise stays
assigned. -/
def initialRequests (env : DeviceEnv) (s : DriverState) : DriverState × Option PyErr :=
  let ident := pyStrip env.idReply
  let s1 : DriverState := { s with identification := some ident }
  if beginsWith fy6900Marker ident then
    match parseMaxFrq ident with
    | none => (s1, some .protocolViolation)
    | some m =>
      let s2 : DriverState := { s1 with maxfrq := some ((m : ℚ) * 10000000) }
      ({ s2 with serialnumber := some (pyStrip env.serialReply) }, none)
  else (s1, some .protocolViolation)

/-- The connect entry point: if a port is already open, do nothing;
otherwise open the port (portOpen becomes true) and run the handshake. -/
def connect (env : DeviceEnv) (s : DriverState) : DriverState × Option PyErr :=
  if s.portOpen then (s, none)
  else initialRequests env { s with portOpen := true }

/-- Python min over a list of rationals (device buffers are nonempty
whenever this is consulted; the empty case is given a default). -/
def listMin : List ℚ → ℚ
  | [] => 0
  | x :: xs => xs.foldl min x

/-- Python max over a list of rationals. -/
def listMax : List ℚ → ℚ
  | [] => 0
  | x :: xs => xs.foldl max x

/-- The normalization step of upload waveform: linear rescale by the
buffer's min and range, with a zero range replaced by 1. -/
def normalizeBuffer (wd : List ℚ) : List ℚ :=
  wd.map (fun x =>
    (x - listMin wd) /
      (if listMax wd - listMin wd = 0 then 1 else listMax wd - listMin wd) * 16383)

/-- The buffer actually transmitted (and left in the caller's list):
rescaled when normalization was requested, untouched otherwise. -/
def uploadBuffer (wavedata : List ℚ) (normalize : Bool) : List ℚ :=
  if normalize then normalizeBuffer wavedata else wavedata

/-- Python int() truncation toward zero on a rational. -/
def pyTrunc (q : ℚ) : ℤ := if q < 0 then -(⌊-q⌋) else ⌊q⌋

/-- struct.pack of one unsigned 16-bit word in big-endian order (the
checks of the caller keep the argument within 0..16383). -/
def packBE16 (n : ℤ) : List ℕ := [n.toNat / 256, n.toNat % 256]

/-- The sample-transmission loop: each sample truncated to an int and
written as two big-endian bytes, with nothing in between. -/
def packAll : List ℚ → List ℕ
  | [] => []
  | b :: rest => packBE16 (pyTrunc b) ++ packAll rest

/-- Characters of the slot-select command handed to sendCommand; the
f-string of the source already ends in a linefeed.  The slot number is
rendered by the 02.0f format: slot+1, zero-padded to at least two
digits. -/
def pyFormat02 (n : ℕ) : List Char :=
  if n < 10 then ['0', Nat.digitChar n] else Nat.toDigits 10 n

/-- Slot-select command string (including its embedded linefeed). -/
def ddsCmdChars (slot : ℤ) : List Char :=
  ['D', 'D', 'S', '_', 'W', 'A', 'V', 'E'] ++ pyFormat02 (slot + 1).toNat ++ ['\n']

/-- Bytes sendCommand puts on the wire for the slot-select exchange: the
command string plus the linefeed the transport always appends. -/
def ddsWire (slot : ℤ) : List Char := ddsCmdChars slot ++ ['\n']

/-- The identity-query line written by each post-upload settle probe. -/
def umoLine : List Char := ['U', 'M', 'O', '\n']

/-- Observable outcome of one upload call: the error raised (if any), the
characters written for the slot-select exchange, the raw sample bytes
written, the settle-probe command lines, and the contents of the caller's
sample list after the call. -/
structure UploadResult where
  error : Option PyErr
  slotCmd : List Char
  dataBytes : List ℕ
  settleCmds : List (List Char)
  buffer : List ℚ
deriving DecidableEq, Repr

/-- Model of upload waveform, parameterized by the device's reply to the
slot-select command: slot and length preconditions, optional in-place
normalization, sample range check, slot-select exchange requiring the
single acknowledgement character W, then the binary sample stream and
three identity probes. -/
def upload_waveform (slot : ℤ) (wavedata : List ℚ) (normalize : Bool)
    (ack : List Char) : UploadResult :=
  if slot < 0 ∨ 63 < slot then ⟨some .invalidArgument, [], [], [], wavedata⟩
  else if wavedata.length ≠ 8192 then ⟨some .invalidArgument, [], [], [], wavedata⟩
  else if listMin (uploadBuffer wavedata normalize) < 0 ∨
      16383 < listMax (uploadBuffer wavedata normalize) then
    ⟨some .invalidArgument, [], [], [], uploadBuffer wavedata normalize⟩
  else if ack ≠ ['W'] then
    ⟨some .protocolViolation, ddsWire slot, [], [], uploadBuffer wavedata normalize⟩
  else
    ⟨none, ddsWire slot, packAll (uploadBuffer wavedata normalize),
      List.replicate 3 umoLine, uploadBuffer wavedata normalize⟩

/-- Unfolding: the first phase loop does nothing on a nonnegative value. -/
theorem addUntilNonneg_of_nonneg {p : ℚ} (h : 0 ≤ p) : addUntilNonneg p = p := by
  rw [addUntilNonneg]
  simp [not_lt.mpr h]

/-- Unfolding: one iteration of the first phase loop. -/
theorem addUntilNonneg_step {p : ℚ} (h : p < 0) :
    addUntilNonneg p = addUntilNonneg (p + 360) := by
  conv_lhs => rw [addUntilNonneg]
  simp [h]

/-- Unfolding: the second phase loop does nothing at or below 359.999. -/
theorem subUntilCap_of_le {p : ℚ} (h : p ≤ 359999 / 1000) : subUntilCap p = p := by
  rw [subUntilCap]
  simp [not_lt.mpr h]

/-- Unfolding: one iteration of the second phase loop. -/
theorem subUntilCap_step {p : ℚ} (h : 359999 / 1000 < p) :
    subUntilCap p = subUntilCap (p - 360) := by
  conv_lhs => rw [subUntilCap]
  simp [h]

/-- The first phase loop always stops at a nonnegative value. -/
theorem addUntilNonneg_nonneg (p : ℚ) : 0 ≤ addUntilNonneg p := by
  exact aux ((⌈-p / 360⌉).toNat) p le_rfl
where
  aux : ∀ (n : ℕ) (p : ℚ), (⌈-p / 360⌉).toNat ≤ n → 0 ≤ addUntilNonneg p := by
    intro n
    induction n with
    | zero =>
      intro p hp
      by_cases h : p < 0
      · exfalso
        have h1 : (0 : ℚ) < -p / 360 := by
          apply div_pos
          · linarith
          · norm_num
        have h2 : (1 : ℤ) ≤ ⌈-p / 360⌉ := Int.ceil_pos.mpr h1
        omega
      · rw [addUntilNonneg_of_nonneg (not_lt.mp h)]
        exact not_lt.mp h
    | succ n ih =>
      intro p hp
      by_cases h : p < 0
      · rw [addUntilNonneg_step h]
        apply ih
        have h1 : (0 : ℚ) < -p / 360 := by
          apply div_pos
          · linarith
          · norm_num
        have h2 : (1 : ℤ) ≤ ⌈-p / 360⌉ := Int.ceil_pos.mpr h1
        have h3 : -(p + 360) / 360 = -p / 360 - 1 := by ring
        rw [h3, Int.ceil_sub_one]
        omega
      · rw [addUntilNonneg_of_nonneg (not_lt.mp h)]
        exact not_lt.mp h

/-- The second phase loop both stays at or below the 359.999 cap and
never drops to -0.001 or below. -/
theorem subUntilCap_bounds (p : ℚ) :
    subUntilCap p ≤ 359999 / 1000 ∧ (-(1 / 1000) < p → -(1 / 1000) < subUntilCap p) := by
  exact aux ((⌈(p - 359999 / 1000) / 360⌉).toNat) p le_rfl
where
  aux : ∀ (n : ℕ) (p : ℚ), (⌈(p - 359999 / 1000) / 360⌉).toNat ≤ n →
      subUntilCap p ≤ 359999 / 1000 ∧ (-(1 / 1000) < p → -(1 / 1000) < subUntilCap p) := by
    intro n
    induction n with
    | zero =>
      intro p hp
      by_cases h : 359999 / 1000 < p
      · exfalso
        have h1 : (0 : ℚ) < (p - 359999 / 1000) / 360 := by
          apply div_pos
          · linarith
          · norm_num
        have h2 : (1 : ℤ) ≤ ⌈(p - 359999 / 1000) / 360⌉ := Int.ceil_pos.mpr h1
        omega
      · rw [subUntilCap_of_le (not_lt.mp h)]
        exact ⟨not_lt.mp h, fun hq => hq⟩
    | succ n ih =>
      intro p hp
      by_cases h : 359999 / 1000 < p
      · rw [subUntilCap_step h]
        have hm : (⌈(p - 360 - 359999 / 1000) / 360⌉).toNat ≤ n := by
          have h1 : (0 : ℚ) < (p - 359999 / 1000) / 360 := by
            apply div_pos
            · linarith
            · norm_num
          have h2 : (1 : ℤ) ≤ ⌈(p - 359999 / 1000) / 360⌉ := Int.ceil_pos.mpr h1
          have h3 : (p - 360 - 359999 / 1000) / 360 = (p - 359999 / 1000) / 360 - 1 := by
            ring
          rw [h3, Int.ceil_sub_one]
          omega
        refine ⟨(ih (p - 360) hm).1, fun _ => (ih (p - 360) hm).2 ?_⟩
        linarith
      · rw [subUntilCap_of_le (not_lt.mp h)]
        exact ⟨not_lt.mp h, fun hq => hq⟩

/-- A min fold never exceeds its initial value. -/
theorem foldl_min_le_init (xs : List ℚ) : ∀ x : ℚ, xs.foldl min x ≤ x := by
  induction xs with
  | nil =>
    intro x
    exact le_refl x
  | cons y ys ih =>
    intro x
    calc (y :: ys).foldl min x = ys.foldl min (min x y) := rfl
      _ ≤ min x y := ih (min x y)
      _ ≤ x := min_le_left x y

/-- A max fold is at least its initial value. -/
theorem init_le_foldl_max (xs : List ℚ) : ∀ x : ℚ, x ≤ xs.foldl max x := by
  induction xs with
  | nil =>
    intro x
    exact le_refl x
  | cons y ys ih =>
    intro x
    calc x ≤ max x y := le_max_left x y
      _ ≤ ys.foldl max (max x y) := ih (max x y)
      _ = (y :: ys).foldl max x := rfl

/-- On a nonempty buffer the minimum never exceeds the maximum. -/
theorem listMin_le_listMax {wd : List ℚ} (h : wd ≠ []) : listMin wd ≤ listMax wd := by
  match wd with
  | [] => exact absurd rfl h
  | x :: xs =>
    calc listMin (x :: xs) = xs.foldl min x := rfl
      _ ≤ x := foldl_min_le_init xs x
      _ ≤ xs.foldl max x := init_le_foldl_max xs x
      _ = listMax (x :: xs) := rfl

/-- A function that distributes over min commutes with a min fold. -/
theorem foldl_min_map (f : ℚ → ℚ) (hf : ∀ a b, f (min a b) = min (f a) (f b))
    (xs : List ℚ) : ∀ x : ℚ, (xs.map f).foldl min (f x) = f (xs.foldl min x) := by
  induction xs with
  | nil =>
    intro x
    rfl
  | cons y ys ih =>
    intro x
    calc ((y :: ys).map f).foldl min (f x) = (ys.map f).foldl min (min (f x) (f y)) := rfl
      _ = (ys.map f).foldl min (f (min x y)) := by rw [hf]
      _ = f (ys.foldl min (min x y)) := ih (min x y)
      _ = f ((y :: ys).foldl min x) := rfl

/-- A function that distributes over max commutes with a max fold. -/
theorem foldl_max_map (f : ℚ → ℚ) (hf : ∀ a b, f (max a b) = max (f a) (f b))
    (xs : List ℚ) : ∀ x : ℚ, (xs.map f).foldl max (f x) = f (xs.foldl max x) := by
  induction xs with
  | nil =>
    intro x
    rfl
  | cons y ys ih =>
    intro x
    calc ((y :: ys).map f).foldl max (f x) = (ys.map f).foldl max (max (f x) (f y)) := rfl
      _ = (ys.map f).foldl max (f (max x y)) := by rw [hf]
      _ = f (ys.foldl max (max x y)) := ih (max x y)
      _ = f ((y :: ys).foldl max x) := rfl

/-- Min of a mapped buffer under a min-distributing function. -/
theorem listMin_map (f : ℚ → ℚ) (hf : ∀ a b, f (min a b) = min (f a) (f b))
    (x : ℚ) (xs : List ℚ) : listMin ((x :: xs).map f) = f (listMin (x :: xs)) := by
  calc listMin ((x :: xs).map f) = (xs.map f).foldl min (f x) := rfl
    _ = f (xs.foldl min x) := foldl_min_map f hf xs x
    _ = f (listMin (x :: xs)) := rfl

/-- Max of a mapped buffer under a max-distributing function. -/
theorem listMax_map (f : ℚ → ℚ) (hf : ∀ a b, f (max a b) = max (f a) (f b))
    (x : ℚ) (xs : List ℚ) : listMax ((x :: xs).map f) = f (listMax (x :: xs)) := by
  calc listMax ((x :: xs).map f) = (xs.map f).foldl max (f x) := rfl
    _ = f (xs.foldl max x) := foldl_max_map f hf xs x
    _ = f (listMax (x :: xs)) := rfl

/-- A min fold over copies of the initial value stays there. -/
theorem foldl_min_replicate (c : ℚ) : ∀ n : ℕ, (List.replicate n c).foldl min c = c := by
  intro n
  induction n with
  | zero => rfl
  | succ n ih =>
    calc (List.replicate (n + 1) c).foldl min c
        = (List.replicate n c).foldl min (min c c) := rfl
      _ = (List.replicate n c).foldl min c := by rw [min_self]
      _ = c := ih

/-- A max fold over copies of the initial value stays there. -/
theorem foldl_max_replicate (c : ℚ) : ∀ n : ℕ, (List.replicate n c).foldl max c = c := by
  intro n
  induction n with
  | zero => rfl
  | succ n ih =>
    calc (List.replicate (n + 1) c).foldl max c
        = (List.replicate n c).foldl max (max c c) := rfl
      _ = (List.replicate n c).foldl max c := by rw [max_self]
      _ = c := ih

/-- Min of a constant buffer. -/
theorem listMin_replicate {n : ℕ} (hn : n ≠ 0) (c : ℚ) :
    listMin (List.replicate n c) = c := by
  match n with
  | 0 => exact absurd rfl hn
  | Nat.succ m =>
    calc listMin (List.replicate (m + 1) c) = (List.replicate m c).foldl min c := rfl
      _ = c := foldl_min_replicate c m

/-- Max of a constant buffer. -/
theorem listMax_replicate {n : ℕ} (hn : n ≠ 0) (c : ℚ) :
    listMax (List.replicate n c) = c := by
  match n with
  | 0 => exact absurd rfl hn
  | Nat.succ m =>
    calc listMax (List.replicate (m + 1) c) = (List.replicate m c).foldl max c := rfl
      _ = c := foldl_max_replicate c m

/-- With distinct extremes, the normalization map is the plain linear
rescale by the min and the range. -/
theorem normalizeBuffer_eq_of_ne {wd : List ℚ} (h : listMin wd ≠ listMax wd) :
    normalizeBuffer wd =
      wd.map (fun x => (x - listMin wd) / (listMax wd - listMin wd) * 16383) := by
  unfold normalizeBuffer
  rw [if_neg (sub_ne_zero.mpr (Ne.symm h))]

/-- The rescale map used by normalization is monotone when the range is
positive. -/
theorem rescale_monotone {mi rng : ℚ} (h : 0 < rng) :
    Monotone (fun x : ℚ => (x - mi) / rng * 16383) := by
  intro a b hab
  apply mul_le_mul_of_nonneg_right
  · exact (div_le_div_iff_of_pos_right h).mpr (sub_le_sub_right hab mi)
  · norm_num

/-- After normalization of a buffer with distinct extremes, the minimum
is exactly 0 and the maximum exactly 16383. -/
theorem normalize_min_max {wd : List ℚ} (hne : wd ≠ [])
    (hmm : listMin wd ≠ listMax wd) :
    listMin (normalizeBuffer wd) = 0 ∧ listMax (normalizeBuffer wd) = 16383 := by
  match wd with
  | [] => exact absurd rfl hne
  | x :: xs =>
    have hlt : listMin (x :: xs) < listMax (x :: xs) :=
      lt_of_le_of_ne (listMin_le_listMax (by simp)) hmm
    have hrng : 0 < listMax (x :: xs) - listMin (x :: xs) := sub_pos.mpr hlt
    have hmono : Monotone
        (fun t : ℚ => (t - listMin (x :: xs)) /
          (listMax (x :: xs) - listMin (x :: xs)) * 16383) := rescale_monotone hrng
    have hfmin : ∀ a b : ℚ,
        (min a b - listMin (x :: xs)) / (listMax (x :: xs) - listMin (x :: xs)) * 16383 =
        min ((a - listMin (x :: xs)) / (listMax (x :: xs) - listMin (x :: xs)) * 16383)
          ((b - listMin (x :: xs)) / (listMax (x :: xs) - listMin (x :: xs)) * 16383) :=
      fun a b => hmono.map_min
    have hfmax : ∀ a b : ℚ,
        (max a b - listMin (x :: xs)) / (listMax (x :: xs) - listMin (x :: xs)) * 16383 =
        max ((a - listMin (x :: xs)) / (listMax (x :: xs) - listMin (x :: xs)) * 16383)
          ((b - listMin (x :: xs)) / (listMax (x :: xs) - listMin (x :: xs)) * 16383) :=
      fun a b => hmono.map_max
    rw [normalizeBuffer_eq_of_ne hmm]
    constructor
    · rw [listMin_map _ hfmin]
      field_simp
    · rw [listMax_map _ hfmax]
      field_simp

/-- Normalizing a constant buffer yields the all-zero buffer of the same
length, with the degenerate range replaced by 1 (no division by zero). -/
theorem normalizeBuffer_replicate (n : ℕ) (c : ℚ) :
    normalizeBuffer (List.replicate n c) = List.replicate n 0 := by
  match n with
  | 0 => rfl
  | Nat.succ m =>
    unfold normalizeBuffer
    rw [listMin_replicate (Nat.succ_ne_zero m) c, listMax_replicate (Nat.succ_ne_zero m) c]
    rw [if_pos (sub_self c), List.map_replicate]
    simp

/-- Packing an all-zero buffer yields all-zero bytes, two per sample. -/
theorem packAll_replicate_zero : ∀ n : ℕ,
    packAll (List.replicate n 0) = List.replicate (2 * n) 0 := by
  intro n
  induction n with
  | zero => rfl
  | succ m ih =>
    have h1 : List.replicate (m + 1) (0 : ℚ) = 0 :: List.replicate m 0 := rfl
    have h2 : packBE16 (pyTrunc 0) = [0, 0] := by
      simp [pyTrunc, packBE16]
    have h3 : 2 * (m + 1) = 2 * m + 1 + 1 := by ring
    rw [h1]
    calc packAll (0 :: List.replicate m 0)
        = packBE16 (pyTrunc 0) ++ packAll (List.replicate m 0) := rfl
      _ = [0, 0] ++ List.replicate (2 * m) 0 := by rw [h2, ih]
      _ = List.replicate (2 * (m + 1)) 0 := by
          rw [h3, List.replicate_succ, List.replicate_succ]
          rfl

/-- Full evaluation of an upload of 8192 zero samples without
normalization, acknowledged by W. -/
theorem upload_replicate_zero_eval :
    upload_waveform 0 (List.replicate 8192 (0 : ℚ)) false ['W'] =
      ⟨none, ddsWire 0, List.replicate 16384 0, List.replicate 3 umoLine,
        List.replicate 8192 0⟩ := by
  unfold upload_waveform
  rw [if_neg (by norm_num : ¬((0 : ℤ) < 0 ∨ 63 < (0 : ℤ)))]
  rw [if_neg (show ¬(List.replicate 8192 (0 : ℚ)).length ≠ 8192 by
    rw [List.length_replicate]
    omega)]
  have hb : uploadBuffer (List.replicate 8192 (0 : ℚ)) false = List.replicate 8192 0 := rfl
  rw [hb, listMin_replicate (by norm_num : (8192 : ℕ) ≠ 0) (0 : ℚ),
    listMax_replicate (by norm_num : (8192 : ℕ) ≠ 0) (0 : ℚ)]
  rw [if_neg (by norm_num : ¬((0 : ℚ) < 0 ∨ (16383 : ℚ) < 0))]
  rw [if_neg (by simp : ¬(['W'] ≠ ['W']))]
  rw [packAll_replicate_zero]

/-- Full evaluation of a normalized upload of 8192 constant samples of
value 5, acknowledged by W: the transmitted buffer is all zeros. -/
theorem upload_replicate5_eval :
    upload_waveform 0 (List.replicate 8192 (5 : ℚ)) true ['W'] =
      ⟨none, ddsWire 0, List.replicate 16384 0, List.replicate 3 umoLine,
        List.replicate 8192 0⟩ := by
  unfold upload_waveform
  rw [if_neg (by norm_num : ¬((0 : ℤ) < 0 ∨ 63 < (0 : ℤ)))]
  rw [if_neg (show ¬(List.replicate 8192 (5 : ℚ)).length ≠ 8192 by
    rw [List.length_replicate]
    omega)]
  have hb : uploadBuffer (List.replicate 8192 (5 : ℚ)) true = List.replicate 8192 0 := by
    unfold uploadBuffer
    rw [if_pos rfl, normalizeBuffer_replicate]
  rw [hb, listMin_replicate (by norm_num : (8192 : ℕ) ≠ 0) (0 : ℚ),
    listMax_replicate (by norm_num : (8192 : ℕ) ≠ 0) (0 : ℚ)]
  rw [if_neg (by norm_num : ¬((0 : ℚ) < 0 ∨ (16383 : ℚ) < 0))]
  rw [if_neg (by simp : ¬(['W'] ≠ ['W']))]
  rw [packAll_replicate_zero]

/-- C1: the spec demands InvalidArgument for a channel outside 0 and 1 on
every per-channel operation, but set channel frequency and set channel
enabled have no else branch on the channel dispatch: called with channel
2 and an in-range setpoint they write no command at all and report
success instead of raising. -/
theorem fy6900_C1_bug :
    set_channel_frequency 100000000 2 5 = .ok [] ∧
    set_channel_enabled 2 true = .ok [] := by
  constructor
  · unfold set_channel_frequency
    norm_num
  · unfold set_channel_enabled
    norm_num

/-- C2 counterexample: the duty-cycle get performs no range check, so a
reply decoding to 500 percent, far outside the declared range up to 100,
is returned as a value instead of raising ProtocolViolation. -/
theorem fy6900_C2_counterexample :
    get_channel_duty_decode (some 500000) = .ok 500 ∧ (100 : ℚ) < 500 := by
  constructor
  · simp only [get_channel_duty_decode, Except.ok.injEq]
    norm_num
  · norm_num

/-- C2 amended: every per-channel get raises ProtocolViolation, distinct
from Timeout, on an unparsable reply; frequency, amplitude, offset and
enable also reject out-of-range decodes; but duty returns its decoded
value with no range check at all, and phase accepts the closed interval
up to and including 360. -/
theorem fy6900_C2_amended :
    (∀ mf : ℚ, get_channel_frequency_decode mf none = .error .protocolViolation) ∧
    (∀ mf r : ℚ, (r < 0 ∨ mf < r) →
      get_channel_frequency_decode mf (some r) = .error .protocolViolation) ∧
    get_channel_amplitude_decode none = .error .protocolViolation ∧
    (∀ r : ℚ, (r / 10000 < 0 ∨ 20 < r / 10000) →
      get_channel_amplitude_decode (some r) = .error .protocolViolation) ∧
    get_channel_offset_decode none = .error .protocolViolation ∧
    (∀ r : ℚ,
      ((if 10000 < r then -1 * (4294967296 - r) / 1000 else r / 1000) < -20 ∨
        20 < (if 10000 < r then -1 * (4294967296 - r) / 1000 else r / 1000)) →
      get_channel_offset_decode (some r) = .error .protocolViolation) ∧
    get_channel_duty_decode none = .error .protocolViolation ∧
    (∀ r : ℚ, get_channel_duty_decode (some r) = .ok (r / 1000)) ∧
    get_channel_phase_decode none = .error .protocolViolation ∧
    (∀ r : ℚ, (r / 1000 < 0 ∨ 360 < r / 1000) →
      get_channel_phase_decode (some r) = .error .protocolViolation) ∧
    is_channel_enabled_decode none = .error .protocolViolation ∧
    (∀ n : ℤ, n ≠ 0 → n ≠ 255 →
      is_channel_enabled_decode (some n) = .error .protocolViolation) ∧
    PyErr.protocolViolation ≠ PyErr.timeout := by
  refine ⟨fun mf => rfl, ?_, rfl, ?_, rfl, ?_, rfl, fun r => rfl, rfl, ?_, rfl, ?_, by decide⟩
  · intro mf r h
    simp only [get_channel_frequency_decode]
    rw [if_pos h]
  · intro r h
    simp only [get_channel_amplitude_decode]
    rw [if_pos h]
  · intro r h
    simp only [get_channel_offset_decode]
    rw [if_pos h]
  · intro r h
    simp only [get_channel_phase_decode]
    rw [if_pos h]
  · intro n h0 h255
    simp only [is_channel_enabled_decode]
    rw [if_neg h0, if_neg h255]

/-- C2 amended witness: concrete instances of the hypotheses of the
amended claim, an out-of-range frequency and an unknown enable code. -/
theorem fy6900_C2_amended_witness :
    ((-5 : ℚ) < 0 ∨ (1 : ℚ) < -5) ∧
    get_channel_frequency_decode 1 (some (-5)) = .error .protocolViolation ∧
    ((2 : ℤ) ≠ 0 ∧ (2 : ℤ) ≠ 255) ∧
    is_channel_enabled_decode (some 2) = .error .protocolViolation :=
  ⟨Or.inl (by norm_num),
    fy6900_C2_amended.2.1 1 (-5) (Or.inl (by norm_num)),
    ⟨by norm_num, by norm_num⟩,
    fy6900_C2_amended.2.2.2.2.2.2.2.2.2.2.2.1 2 (by norm_num) (by norm_num)⟩

/-- C3: whenever a one-byte read of the transport returns zero bytes
before any 0x0A terminator byte has appeared, the read loop raises
Timeout, whatever bytes it had accumulated; no partial payload is
returned. -/
theorem fy6900_C3 (pre post : List (Option ℕ)) (acc : List ℕ)
    (h : some 10 ∉ pre) :
    readLoop (pre ++ none :: post) acc = .error .timeout := by
  induction pre generalizing acc with
  | nil => rfl
  | cons x xs ih =>
    cases x with
    | none => rfl
    | some c =>
      have hc : c ≠ 10 := by
        intro hc
        exact h (by rw [hc]; exact List.mem_cons_self _ _)
      have hx : some 10 ∉ xs := fun hm => h (List.mem_cons_of_mem _ hm)
      calc readLoop ((some c :: xs) ++ none :: post) acc
          = readLoop (xs ++ none :: post) (acc ++ [c]) := by
            simp only [List.cons_append, readLoop, if_neg hc]
            rfl
        _ = .error .timeout := ih (acc ++ [c]) hx

/-- C3 witness: a stream delivering one payload byte and then a
zero-length read times out. -/
theorem fy6900_C3_witness :
    some 10 ∉ [some 65] ∧
    readLoop ([some 65] ++ none :: []) [] = .error .timeout :=
  ⟨by decide, fy6900_C3 [some 65] [] [] (by decide)⟩

/-- C4 counterexample: with an identity reply lacking the device-family
marker, connect raises ProtocolViolation but leaves the port open and the
bogus identification recorded, so the driver state is not as if connect
had never been called. -/
theorem fy6900_C4_counterexample :
    (connect ⟨['B', 'A', 'D'], ['S', 'N']⟩ initialState).2 =
      some PyErr.protocolViolation ∧
    (connect ⟨['B', 'A', 'D'], ['S', 'N']⟩ initialState).1.portOpen = true ∧
    (connect ⟨['B', 'A', 'D'], ['S', 'N']⟩ initialState).1 ≠ initialState := by
  refine ⟨?_, ?_, ?_⟩ <;> decide

/-- C4 amended: when the identity reply lacks the family marker, or has
it but its frequency figure does not parse, connect raises
ProtocolViolation, yet the connection is left partially initialised: the
port stays open with the identification recorded and no maximum
frequency, and a subsequent connect finds the port open and returns
immediately as if connected. -/
theorem fy6900_C4_amended (env : DeviceEnv)
    (h : beginsWith fy6900Marker (pyStrip env.idReply) = false ∨
      (beginsWith fy6900Marker (pyStrip env.idReply) = true ∧
        parseMaxFrq (pyStrip env.idReply) = none)) :
    (connect env initialState).2 = some PyErr.protocolViolation ∧
    (connect env initialState).1.portOpen = true ∧
    (connect env initialState).1.identification = some (pyStrip env.idReply) ∧
    (connect env initialState).1.maxfrq = none ∧
    connect env (connect env initialState).1 = ((connect env initialState).1, none) := by
  have hstep : connect env initialState =
      initialRequests env { initialState with portOpen := true } := by
    unfold connect initialState
    simp
  have hres : initialRequests env { initialState with portOpen := true } =
      (⟨true, some (pyStrip env.idReply), none, none⟩, some PyErr.protocolViolation) := by
    rcases h with h | ⟨hb, hp⟩
    · simp [initialRequests, initialState, h]
    · simp [initialRequests, initialState, hb, hp]
  rw [hstep, hres]
  refine ⟨rfl, rfl, rfl, rfl, ?_⟩
  unfold connect
  simp

/-- C4 amended witness: the amended claim at a concrete junk identity
reply. -/
theorem fy6900_C4_amended_witness :
    (beginsWith fy6900Marker (pyStrip ['X', 'Y']) = false ∨
      (beginsWith fy6900Marker (pyStrip ['X', 'Y']) = true ∧
        parseMaxFrq (pyStrip ['X', 'Y']) = none)) ∧
    ((connect ⟨['X', 'Y'], ['S']⟩ initialState).2 = some PyErr.protocolViolation ∧
      (connect ⟨['X', 'Y'], ['S']⟩ initialState).1.portOpen = true ∧
      (connect ⟨['X', 'Y'], ['S']⟩ initialState).1.identification =
        some (pyStrip ['X', 'Y']) ∧
      (connect ⟨['X', 'Y'], ['S']⟩ initialState).1.maxfrq = none ∧
      connect ⟨['X', 'Y'], ['S']⟩ (connect ⟨['X', 'Y'], ['S']⟩ initialState).1 =
        ((connect ⟨['X', 'Y'], ['S']⟩ initialState).1, none)) :=
  ⟨Or.inl (by decide), fy6900_C4_amended ⟨['X', 'Y'], ['S']⟩ (Or.inl (by decide))⟩

/-- C5 counterexample: the slot-select command string handed to the
transport already ends in a linefeed and the transport appends another,
so the wire carries the command followed by two linefeed bytes, not by a
single trailing linefeed as claimed. -/
theorem fy6900_C5_counterexample :
    (upload_waveform 0 (List.replicate 8192 (0 : ℚ)) false ['W']).slotCmd =
      ['D', 'D', 'S', '_', 'W', 'A', 'V', 'E', '0', '1', '\n', '\n'] ∧
    (upload_waveform 0 (List.replicate 8192 (0 : ℚ)) false ['W']).slotCmd ≠
      ['D', 'D', 'S', '_', 'W', 'A', 'V', 'E', '0', '1', '\n'] := by
  rw [upload_replicate_zero_eval]
  constructor
  · decide
  · decide

/-- C5 amended: for a valid upload the slot-select exchange writes
DDS_WAVE followed by slot+1 as at least two digits and two linefeeds (one
embedded in the command string, one appended by the transport); any reply
other than the single character W raises ProtocolViolation with no
further transmission; on acknowledgement the 8192 samples follow as
consecutive big-endian 16-bit words with nothing between them, before the
settle probes. -/
theorem fy6900_C5_amended (slot : ℤ) (wd : List ℚ) (ack : List Char)
    (h1 : 0 ≤ slot) (h2 : slot ≤ 63) (h3 : wd.length = 8192)
    (h4 : 0 ≤ listMin wd) (h5 : listMax wd ≤ 16383) :
    (upload_waveform slot wd false ack).slotCmd =
      ['D', 'D', 'S', '_', 'W', 'A', 'V', 'E'] ++ pyFormat02 (slot + 1).toNat ++
        ['\n', '\n'] ∧
    (ack ≠ ['W'] →
      (upload_waveform slot wd false ack).error = some PyErr.protocolViolation ∧
      (upload_waveform slot wd false ack).dataBytes = [] ∧
      (upload_waveform slot wd false ack).settleCmds = []) ∧
    (ack = ['W'] →
      (upload_waveform slot wd false ack).error = none ∧
      (upload_waveform slot wd false ack).dataBytes = packAll wd) ∧
    (∀ (b : ℚ) (rest : List ℚ),
      packAll (b :: rest) =
        (pyTrunc b).toNat / 256 :: (pyTrunc b).toNat % 256 :: packAll rest) := by
  have hb : uploadBuffer wd false = wd := rfl
  have hu : upload_waveform slot wd false ack =
      if ack ≠ ['W'] then ⟨some .protocolViolation, ddsWire slot, [], [], wd⟩
      else ⟨none, ddsWire slot, packAll wd, List.replicate 3 umoLine, wd⟩ := by
    unfold upload_waveform
    rw [hb]
    rw [if_neg (by omega : ¬(slot < 0 ∨ 63 < slot))]
    rw [if_neg (by omega : ¬wd.length ≠ 8192)]
    rw [if_neg (show ¬(listMin wd < 0 ∨ 16383 < listMax wd) by
      push_neg
      exact ⟨h4, h5⟩)]
  refine ⟨?_, ?_, ?_, ?_⟩
  · rw [hu]
    by_cases hack : ack = ['W']
    · rw [if_neg (by simp [hack])]
      simp [ddsWire, ddsCmdChars, List.append_assoc]
    · rw [if_pos hack]
      simp [ddsWire, ddsCmdChars, List.append_assoc]
  · intro hack
    rw [hu, if_pos hack]
    exact ⟨rfl, rfl, rfl⟩
  · intro hack
    rw [hu, if_neg (by simp [hack])]
    exact ⟨rfl, rfl⟩
  · intro b rest
    rfl

/-- C5 amended witness: the amended claim at slot 0 with a constant
zero buffer and a rejected acknowledgement. -/
theorem fy6900_C5_amended_witness :
    ((0 : ℤ) ≤ 0 ∧ (0 : ℤ) ≤ 63 ∧ (List.replicate 8192 (0 : ℚ)).length = 8192 ∧
      0 ≤ listMin (List.replicate 8192 (0 : ℚ)) ∧
      listMax (List.replicate 8192 (0 : ℚ)) ≤ 16383) ∧
    ((upload_waveform 0 (List.replicate 8192 (0 : ℚ)) false ['X']).slotCmd =
      ['D', 'D', 'S', '_', 'W', 'A', 'V', 'E'] ++ pyFormat02 ((0 : ℤ) + 1).toNat ++
        ['\n', '\n'] ∧
    ((['X'] : List Char) ≠ ['W'] →
      (upload_waveform 0 (List.replicate 8192 (0 : ℚ)) false ['X']).error =
        some PyErr.protocolViolation ∧
      (upload_waveform 0 (List.replicate 8192 (0 : ℚ)) false ['X']).dataBytes = [] ∧
      (upload_waveform 0 (List.replicate 8192 (0 : ℚ)) false ['X']).settleCmds = []) ∧
    ((['X'] : List Char) = ['W'] →
      (upload_waveform 0 (List.replicate 8192 (0 : ℚ)) false ['X']).error = none ∧
      (upload_waveform 0 (List.replicate 8192 (0 : ℚ)) false ['X']).dataBytes =
        packAll (List.replicate 8192 (0 : ℚ))) ∧
    (∀ (b : ℚ) (rest : List ℚ),
      packAll (b :: rest) =
        (pyTrunc b).toNat / 256 :: (pyTrunc b).toNat % 256 :: packAll rest)) :=
  ⟨⟨le_refl 0, by norm_num,
      by rw [List.length_replicate],
      by rw [listMin_replicate (by norm_num : (8192 : ℕ) ≠ 0) (0 : ℚ)],
      by
        rw [listMax_replicate (by norm_num : (8192 : ℕ) ≠ 0) (0 : ℚ)]
        norm_num⟩,
    fy6900_C5_amended 0 (List.replicate 8192 (0 : ℚ)) ['X'] (le_refl 0) (by norm_num)
      (by rw [List.length_replicate])
      (by rw [listMin_replicate (by norm_num : (8192 : ℕ) ≠ 0) (0 : ℚ)])
      (by
        rw [listMax_replicate (by norm_num : (8192 : ℕ) ≠ 0) (0 : ℚ)]
        norm_num)⟩

/-- C6: the offset get decodes a raw reply r as minus (2 to the 32 minus
r) over 1000 when r exceeds 10000 and as r over 1000 otherwise, raising
ProtocolViolation outside -20..20 V; raw 4294967295 decodes to -0.001 V
and raw 0 to 0 V. -/
theorem fy6900_C6 :
    (∀ r : ℚ, get_channel_offset_decode (some r) =
      if (if 10000 < r then -((2 : ℚ) ^ 32 - r) / 1000 else r / 1000) < -20 ∨
          20 < (if 10000 < r then -((2 : ℚ) ^ 32 - r) / 1000 else r / 1000) then
        .error .protocolViolation
      else .ok (if 10000 < r then -((2 : ℚ) ^ 32 - r) / 1000 else r / 1000)) ∧
    get_channel_offset_decode (some 4294967295) = .ok (-(1 / 1000)) ∧
    get_channel_offset_decode (some 0) = .ok 0 := by
  have he : ∀ r : ℚ, -1 * (4294967296 - r) / 1000 = -((2 : ℚ) ^ 32 - r) / 1000 := by
    intro r
    have h32 : ((2 : ℚ) ^ 32) = 4294967296 := by norm_num
    rw [h32]
    ring
  refine ⟨?_, ?_, ?_⟩
  · intro r
    simp only [get_channel_offset_decode, he r]
  · simp only [get_channel_offset_decode]
    norm_num
  · simp only [get_channel_offset_decode]
    norm_num

/-- C7 counterexample: the input 359.9995 lies in the declared range
0..360 exclusive, yet the write normalization transmits -0.0005, a value
outside 0..360 exclusive, because the subtraction loop fires once the
value exceeds 359.999. -/
theorem fy6900_C7_counterexample :
    set_channel_phase_value (7199990 / 20000) = -(1 / 2000) ∧
    ¬(0 ≤ set_channel_phase_value (7199990 / 20000)) := by
  have h1 : set_channel_phase_value (7199990 / 20000) = -(1 / 2000) := by
    unfold set_channel_phase_value
    rw [addUntilNonneg_of_nonneg (by norm_num)]
    rw [subUntilCap_step (by norm_num)]
    have h2 : (7199990 : ℚ) / 20000 - 360 = -(1 / 2000) := by norm_num
    rw [h2]
    rw [subUntilCap_of_le (by norm_num)]
  refine ⟨h1, ?_⟩
  rw [h1]
  norm_num

/-- C7 amended: the phase write normalizes by repeated 360 shifts, but
the loop condition compares against 359.999, so the transmitted value
always lies strictly between -0.001 and 359.999 inclusive rather than in
0..360 exclusive; the claimed examples hold: -10 transmits 350 and 725
transmits 5. -/
theorem fy6900_C7_amended (p : ℚ) :
    -(1 / 1000) < set_channel_phase_value p ∧
    set_channel_phase_value p ≤ 359999 / 1000 ∧
    set_channel_phase_value (-10) = 350 ∧
    set_channel_phase_value 725 = 5 := by
  refine ⟨?_, ?_, ?_, ?_⟩
  · unfold set_channel_phase_value
    exact (subUntilCap_bounds (addUntilNonneg p)).2
      (lt_of_lt_of_le (by norm_num) (addUntilNonneg_nonneg p))
  · unfold set_channel_phase_value
    exact (subUntilCap_bounds (addUntilNonneg p)).1
  · unfold set_channel_phase_value
    rw [addUntilNonneg_step (by norm_num)]
    have h : (-10 : ℚ) + 360 = 350 := by norm_num
    rw [h, addUntilNonneg_of_nonneg (by norm_num), subUntilCap_of_le (by norm_num)]
  · unfold set_channel_phase_value
    rw [addUntilNonneg_of_nonneg (by norm_num), subUntilCap_step (by norm_num)]
    have h : (725 : ℚ) - 360 = 365 := by norm_num
    rw [h, subUntilCap_step (by norm_num)]
    have h2 : (365 : ℚ) - 360 = 5 := by norm_num
    rw [h2, subUntilCap_of_le (by norm_num)]

/-- C8: upload rejects a slot outside 0..63, a sample count other than
8192, or any post-normalization sample outside 0..16383 with
InvalidArgument, writing neither the slot-select command nor any sample
byte nor the settle probes. -/
theorem fy6900_C8 (slot : ℤ) (wavedata : List ℚ) (normalize : Bool) (ack : List Char)
    (h : slot < 0 ∨ 63 < slot ∨ wavedata.length ≠ 8192 ∨
      listMin (uploadBuffer wavedata normalize) < 0 ∨
      16383 < listMax (uploadBuffer wavedata normalize)) :
    (upload_waveform slot wavedata normalize ack).error = some PyErr.invalidArgument ∧
    (upload_waveform slot wavedata normalize ack).slotCmd = [] ∧
    (upload_waveform slot wavedata normalize ack).dataBytes = [] ∧
    (upload_waveform slot wavedata normalize ack).settleCmds = [] := by
  unfold upload_waveform
  by_cases h1 : slot < 0 ∨ 63 < slot
  · rw [if_pos h1]
    exact ⟨rfl, rfl, rfl, rfl⟩
  · rw [if_neg h1]
    by_cases h2 : wavedata.length ≠ 8192
    · rw [if_pos h2]
      exact ⟨rfl, rfl, rfl, rfl⟩
    · rw [if_neg h2]
      have h3 : listMin (uploadBuffer wavedata normalize) < 0 ∨
          16383 < listMax (uploadBuffer wavedata normalize) := by tauto
      rw [if_pos h3]
      exact ⟨rfl, rfl, rfl, rfl⟩

/-- C8 witness: slot 99 with an empty buffer is rejected before any wire
interaction. -/
theorem fy6900_C8_witness :
    ((99 : ℤ) < 0 ∨ (63 : ℤ) < 99 ∨ ([] : List ℚ).length ≠ 8192 ∨
      listMin (uploadBuffer [] false) < 0 ∨
      16383 < listMax (uploadBuffer [] false)) ∧
    ((upload_waveform 99 [] false ['W']).error = some PyErr.invalidArgument ∧
      (upload_waveform 99 [] false ['W']).slotCmd = [] ∧
      (upload_waveform 99 [] false ['W']).dataBytes = [] ∧
      (upload_waveform 99 [] false ['W']).settleCmds = []) :=
  ⟨Or.inr (Or.inl (by norm_num)),
    fy6900_C8 99 [] false ['W'] (Or.inr (Or.inl (by norm_num)))⟩

/-- C9: normalization linearly rescales the buffer so that its minimum
maps to 0 and its maximum to 16383; a constant buffer has its degenerate
range replaced by 1 and becomes all zeros, with no division error
possible, and the normalized upload of a constant buffer of 5 transmits
only zero bytes and succeeds. -/
theorem fy6900_C9 (wavedata : List ℚ) (hne : wavedata ≠ [])
    (hmm : listMin wavedata ≠ listMax wavedata) :
    normalizeBuffer wavedata =
      wavedata.map (fun x =>
        (x - listMin wavedata) / (listMax wavedata - listMin wavedata) * 16383) ∧
    listMin (normalizeBuffer wavedata) = 0 ∧
    listMax (normalizeBuffer wavedata) = 16383 ∧
    (∀ (n : ℕ) (c : ℚ), normalizeBuffer (List.replicate n c) = List.replicate n 0) ∧
    (upload_waveform 0 (List.replicate 8192 (5 : ℚ)) true ['W']).dataBytes =
      List.replicate 16384 0 ∧
    (upload_waveform 0 (List.replicate 8192 (5 : ℚ)) true ['W']).error = none := by
  refine ⟨normalizeBuffer_eq_of_ne hmm, (normalize_min_max hne hmm).1,
    (normalize_min_max hne hmm).2, fun n c => normalizeBuffer_replicate n c, ?_, ?_⟩
  · rw [upload_replicate5_eval]
  · rw [upload_replicate5_eval]

/-- C9 witness: the claim at the two-sample buffer 1, 3, whose extremes
are distinct. -/
theorem fy6900_C9_witness :
    (([(1 : ℚ), 3] ≠ []) ∧ listMin [(1 : ℚ), 3] ≠ listMax [(1 : ℚ), 3]) ∧
    (normalizeBuffer [(1 : ℚ), 3] =
      [(1 : ℚ), 3].map (fun x =>
        (x - listMin [(1 : ℚ), 3]) /
          (listMax [(1 : ℚ), 3] - listMin [(1 : ℚ), 3]) * 16383) ∧
    listMin (normalizeBuffer [(1 : ℚ), 3]) = 0 ∧
    listMax (normalizeBuffer [(1 : ℚ), 3]) = 16383 ∧
    (∀ (n : ℕ) (c : ℚ), normalizeBuffer (List.replicate n c) = List.replicate n 0) ∧
    (upload_waveform 0 (List.replicate 8192 (5 : ℚ)) true ['W']).dataBytes =
      List.replicate 16384 0 ∧
    (upload_waveform 0 (List.replicate 8192 (5 : ℚ)) true ['W']).error = none) :=
  ⟨⟨by simp, by decide⟩, fy6900_C9 [1, 3] (by simp) (by decide)⟩

/-- C10: with normalization requested and the slot and length checks
passed, the caller's buffer holds the rescaled samples after the call,
whatever the device replied; without normalization the caller's buffer is
always left exactly as passed. -/
theorem fy6900_C10 (slot : ℤ) (wavedata : List ℚ) (ack : List Char)
    (h1 : 0 ≤ slot) (h2 : slot ≤ 63) (h3 : wavedata.length = 8192) :
    (upload_waveform slot wavedata true ack).buffer = normalizeBuffer wavedata ∧
    (∀ (s : ℤ) (wd : List ℚ) (a : List Char),
      (upload_waveform s wd false a).buffer = wd) := by
  constructor
  · unfold upload_waveform
    rw [if_neg (by omega : ¬(slot < 0 ∨ 63 < slot))]
    rw [if_neg (by omega : ¬wavedata.length ≠ 8192)]
    have hb : uploadBuffer wavedata true = normalizeBuffer wavedata := rfl
    rw [hb]
    by_cases h4 : listMin (normalizeBuffer wavedata) < 0 ∨
        16383 < listMax (normalizeBuffer wavedata)
    · rw [if_pos h4]
    · rw [if_neg h4]
      by_cases h5 : ack ≠ ['W']
      · rw [if_pos h5]
      · rw [if_neg h5]
  · intro s wd a
    unfold upload_waveform
    have hb : uploadBuffer wd false = wd := rfl
    rw [hb]
    by_cases k1 : s < 0 ∨ 63 < s
    · rw [if_pos k1]
    · rw [if_neg k1]
      by_cases k2 : wd.length ≠ 8192
      · rw [if_pos k2]
      · rw [if_neg k2]
        by_cases k3 : listMin wd < 0 ∨ 16383 < listMax wd
        · rw [if_pos k3]
        · rw [if_neg k3]
          by_cases k4 : a ≠ ['W']
          · rw [if_pos k4]
          · rw [if_neg k4]

/-- C10 witness: the claim at slot 0 on a constant buffer of 5 with a
non-acknowledging device. -/
theorem fy6900_C10_witness :
    ((0 : ℤ) ≤ 0 ∧ (0 : ℤ) ≤ 63 ∧ (List.replicate 8192 (5 : ℚ)).length = 8192) ∧
    ((upload_waveform 0 (List.replicate 8192 (5 : ℚ)) true ['X']).buffer =
      normalizeBuffer (List.replicate 8192 (5 : ℚ)) ∧
    (∀ (s : ℤ) (wd : List ℚ) (a : List Char),
      (upload_waveform s wd false a).buffer = wd)) :=
  ⟨⟨le_refl 0, by norm_num, by rw [List.length_replicate]⟩,
    fy6900_C10 0 (List.replicate 8192 (5 : ℚ)) ['X'] (le_refl 0) (by norm_num)
      (by rw [List.length_replicate])⟩
